import Mathlib

/-!
Shallow embedding of `src/studio/import_asset_dialog.cpp` (the LumixEngine
asset-import pipeline): vertex-layout selection, submesh descriptor emission,
skin-influence aggregation, geometry packing, skeleton serialization,
animation resampling and the material pass.  Machine 32-bit integers are
modelled as `ℤ` with an explicit two's-complement wrap; IEEE floats are
modelled as exact rationals (`ℚ`), with out-of-range/undefined accesses made
explicit through `Option`.
-/

/-- Two's-complement reinterpretation of an integer as a signed 32-bit value,
modelling a store into an `int32_t`. -/
def wrap32 (n : ℤ) : ℤ := (n + 2147483648) % 4294967296 - 2147483648

theorem wrap32_eq_self {n : ℤ} (h1 : -2147483648 ≤ n) (h2 : n < 2147483648) :
    wrap32 n = n := by
  unfold wrap32; omega

theorem wrap32_coe_nat {n : ℕ} (h : n < 2147483648) : wrap32 (n : ℤ) = (n : ℤ) := by
  apply wrap32_eq_self <;> omega

/-- Truncation toward zero, modelling C float-to-integer conversion. -/
def truncQ (q : ℚ) : ℤ := if 0 ≤ q then ⌊q⌋ else ⌈q⌉

/-- Value of a 32-bit IEEE float, kept symbolic: either an exact finite
rational or one of the special values. -/
inductive F32 where
  | finite : ℚ → F32
  | posInf : F32
  | negInf : F32
  | nan : F32
deriving DecidableEq, Repr

/-- Exact rational value of `FLT_MAX`, the largest finite 32-bit float:
`(2 - 2⁻²³) · 2¹²⁷`. -/
def fltMaxQ : ℚ := 2 ^ 128 - 2 ^ 104

/-- Vector of three scene scalars (`aiVector3D`), exact-rational model. -/
structure AiVec3 where
  x : ℚ
  y : ℚ
  z : ℚ
deriving DecidableEq, Repr

/-- Row-major 4×4 transform matrix (`aiMatrix4x4`), rows `a`–`d`. -/
structure Mat4 where
  a1 : ℚ
  a2 : ℚ
  a3 : ℚ
  a4 : ℚ
  b1 : ℚ
  b2 : ℚ
  b3 : ℚ
  b4 : ℚ
  c1 : ℚ
  c2 : ℚ
  c3 : ℚ
  c4 : ℚ
  d1 : ℚ
  d2 : ℚ
  d3 : ℚ
  d4 : ℚ
deriving DecidableEq, Repr

/-- Upper-left 3×3 block of a transform: the rotation part that
`DecomposeNoScaling` converts to a quaternion. -/
structure Mat3 where
  a1 : ℚ
  a2 : ℚ
  a3 : ℚ
  b1 : ℚ
  b2 : ℚ
  b3 : ℚ
  c1 : ℚ
  c2 : ℚ
  c3 : ℚ
deriving DecidableEq, Repr

/-- Matrix product, `aiMatrix4x4::operator*`. -/
def mat4Mul (m n : Mat4) : Mat4 :=
  { a1 := m.a1 * n.a1 + m.a2 * n.b1 + m.a3 * n.c1 + m.a4 * n.d1
  , a2 := m.a1 * n.a2 + m.a2 * n.b2 + m.a3 * n.c2 + m.a4 * n.d2
  , a3 := m.a1 * n.a3 + m.a2 * n.b3 + m.a3 * n.c3 + m.a4 * n.d3
  , a4 := m.a1 * n.a4 + m.a2 * n.b4 + m.a3 * n.c4 + m.a4 * n.d4
  , b1 := m.b1 * n.a1 + m.b2 * n.b1 + m.b3 * n.c1 + m.b4 * n.d1
  , b2 := m.b1 * n.a2 + m.b2 * n.b2 + m.b3 * n.c2 + m.b4 * n.d2
  , b3 := m.b1 * n.a3 + m.b2 * n.b3 + m.b3 * n.c3 + m.b4 * n.d3
  , b4 := m.b1 * n.a4 + m.b2 * n.b4 + m.b3 * n.c4 + m.b4 * n.d4
  , c1 := m.c1 * n.a1 + m.c2 * n.b1 + m.c3 * n.c1 + m.c4 * n.d1
  , c2 := m.c1 * n.a2 + m.c2 * n.b2 + m.c3 * n.c2 + m.c4 * n.d2
  , c3 := m.c1 * n.a3 + m.c2 * n.b3 + m.c3 * n.c3 + m.c4 * n.d3
  , c4 := m.c1 * n.a4 + m.c2 * n.b4 + m.c3 * n.c4 + m.c4 * n.d4
  , d1 := m.d1 * n.a1 + m.d2 * n.b1 + m.d3 * n.c1 + m.d4 * n.d1
  , d2 := m.d1 * n.a2 + m.d2 * n.b2 + m.d3 * n.c2 + m.d4 * n.d2
  , d3 := m.d1 * n.a3 + m.d2 * n.b3 + m.d3 * n.c3 + m.d4 * n.d3
  , d4 := m.d1 * n.a4 + m.d2 * n.b4 + m.d3 * n.c4 + m.d4 * n.d4 }

/-- Identity transform, `aiMatrix4x4()`. -/
def mat4Id : Mat4 := ⟨1, 0, 0, 0, 0, 1, 0, 0, 0, 0, 1, 0, 0, 0, 0, 1⟩

theorem mat4Mul_assoc (m n p : Mat4) :
    mat4Mul (mat4Mul m n) p = mat4Mul m (mat4Mul n p) := by
  cases m; cases n; cases p
  simp only [mat4Mul, Mat4.mk.injEq]
  refine ⟨?_, ?_, ?_, ?_, ?_, ?_, ?_, ?_, ?_, ?_, ?_, ?_, ?_, ?_, ?_, ?_⟩ <;> ring

theorem mat4Id_mul (m : Mat4) : mat4Mul mat4Id m = m := by
  cases m
  simp only [mat4Mul, mat4Id, Mat4.mk.injEq]
  refine ⟨?_, ?_, ?_, ?_, ?_, ?_, ?_, ?_, ?_, ?_, ?_, ?_, ?_, ?_, ?_, ?_⟩ <;> ring

/-- Translation extracted by `DecomposeNoScaling`: the fourth column. -/
def translationOf (m : Mat4) : AiVec3 := ⟨m.a4, m.b4, m.c4⟩

/-- Rotation block handed by `DecomposeNoScaling` to the quaternion
constructor. -/
def rotOf (m : Mat4) : Mat3 := ⟨m.a1, m.a2, m.a3, m.b1, m.b2, m.b3, m.c1, m.c2, m.c3⟩

/-- Scene node (`aiNode`): name, local transform, children. The parent
pointer is implicit in the tree structure. -/
structure AiNode where
  name : String
  transformation : Mat4
  children : List AiNode

/-- Placeholder node used as the default of total list lookups in the
path-based specification functions; never reached on valid paths. -/
def dummyNode : AiNode := ⟨"", mat4Id, []⟩

/-- Single `(vertex id, weight)` pair of a bone (`aiVertexWeight`). -/
structure AiVertexWeight where
  vertexId : ℕ
  weight : ℚ
deriving DecidableEq, Repr

/-- Bone of a mesh (`aiBone`): node name plus its weight list. -/
structure AiBone where
  name : String
  weights : List AiVertexWeight
deriving DecidableEq, Repr

/-- Mesh view (`aiMesh`): per-vertex attribute streams, triangulated faces,
material index and bones. -/
structure AiMesh where
  vertices : List AiVec3
  normals : List AiVec3
  tangents : List AiVec3
  uvs : List (ℚ × ℚ)
  faces : List (ℕ × ℕ × ℕ)
  materialIndex : ℕ
  bones : List AiBone
deriving DecidableEq, Repr

/-- Placeholder mesh used as the default of total list lookups. -/
def dummyMesh : AiMesh := ⟨[], [], [], [], [], 0, []⟩

/-- Position key of an animation channel (`aiVectorKey`). -/
structure AiVectorKey where
  time : ℚ
  value : AiVec3
deriving DecidableEq, Repr

/-- Animation channel (`aiNodeAnim`): target node name and its position
keys (the rotation-key path is symmetric and not needed by the claims). -/
structure AiNodeAnim where
  nodeName : String
  positionKeys : List AiVectorKey
deriving DecidableEq, Repr

/-- Animation clip (`aiAnimation`). -/
structure AiAnimation where
  name : String
  ticksPerSecond : ℚ
  duration : ℚ
  channels : List AiNodeAnim
deriving DecidableEq, Repr

/-- Scene view (`aiScene`): root node, meshes, material names, clips. -/
structure AiScene where
  rootNode : AiNode
  meshes : List AiMesh
  materials : List String
  animations : List AiAnimation

mutual

/-- Number of nodes of a subtree, from `countNodes`. -/
def countNodes : AiNode → ℕ
  | .mk _ _ cs => 1 + countNodesList cs

def countNodesList : List AiNode → ℕ
  | [] => 0
  | c :: cs => countNodes c + countNodesList cs

end

mutual

/-- Pre-order accumulation of node names, from the local helper `S::x` of
`getBoneNames` (a `push_back` followed by recursion over the children). -/
def collectNames : AiNode → List String → List String
  | .mk nm _ cs, acc => collectNamesList cs (acc ++ [nm])

def collectNamesList : List AiNode → List String → List String
  | [], acc => acc
  | c :: cs, acc => collectNamesList cs (collectNames c acc)

end

/-- Flattened node-name list of the scene, from `getBoneNames`. -/
def getBoneNames (scene : AiScene) : List String :=
  collectNames scene.rootNode []

mutual

/-- Every node of a subtree described as a path of child indices from the
subtree root, generated in depth-first pre-order; the root is `[]`.
Specification-side view: each node corresponds to exactly one path. -/
def allPaths : AiNode → List (List ℕ)
  | .mk _ _ cs => [] :: allPathsChildren cs 0

def allPathsChildren : List AiNode → ℕ → List (List ℕ)
  | [], _ => []
  | c :: cs, k => (allPaths c).map (fun p => k :: p) ++ allPathsChildren cs (k + 1)

end

/-- Name of the node reached by a child-index path (total; the default is
never reached on paths produced by `allPaths`). -/
def nameAtD : AiNode → List ℕ → String
  | n, [] => n.name
  | n, k :: p => nameAtD ((n.children.get? k).getD dummyNode) p

/-- Ancestor-composed transform along a child-index path: the product of the
local transforms of every node from the subtree root down to the addressed
node, in order. -/
def pathTransformD : AiNode → List ℕ → Mat4
  | n, [] => n.transformation
  | n, k :: p => mat4Mul n.transformation (pathTransformD ((n.children.get? k).getD dummyNode) p)

/-- One record of the skeleton block: the data `writeNode` emits for a
single node (name, parent name, then the decomposed accumulated
transform — translation and the rotation block fed to the quaternion
conversion of the external math library). -/
structure SkelEntry where
  name : String
  parentName : String
  pos : AiVec3
  rot : Mat3
deriving DecidableEq, Repr

mutual

/-- Skeleton records emitted by `writeNode file node parent_transform`:
the node's name, its parent's name (length-0 string when `mParent` is
null), and `DecomposeNoScaling` of `parent_transform * node->mTransformation`;
then the children, each with the accumulated product as parent transform. -/
def writeNodeEntries : Option String → Mat4 → AiNode → List SkelEntry
  | pname, pt, .mk nm tr cs =>
    { name := nm
    , parentName := pname.getD ""
    , pos := translationOf (mat4Mul pt tr)
    , rot := rotOf (mat4Mul pt tr) }
    :: writeNodeChildren nm (mat4Mul pt tr) cs

def writeNodeChildren : String → Mat4 → List AiNode → List SkelEntry
  | _, _, [] => []
  | pname, g, c :: cs => writeNodeEntries (some pname) g c ++ writeNodeChildren pname g cs

end

/-- Skeleton block of the mesh artifact, from `writeSkeleton`: the `int32`
node count, then the records of `writeNode(root, identity)`. -/
def writeSkeleton (scene : AiScene) : ℤ × List SkelEntry :=
  (wrap32 (countNodes scene.rootNode), writeNodeEntries none mat4Id scene.rootNode)

/-- Specification-side description of one skeleton record, addressed by a
child-index path: name of the addressed node, name of the node one step up
(the given top-level parent name for the subtree root itself), and the
decomposition of the pre-composed prefix times the ancestor-composed path
transform. -/
def specEntryFrom (topParent : String) (pt : Mat4) (n : AiNode) (p : List ℕ) : SkelEntry :=
  { name := nameAtD n p
  , parentName := if p.isEmpty then topParent else nameAtD n p.dropLast
  , pos := translationOf (mat4Mul pt (pathTransformD n p))
  , rot := rotOf (mat4Mul pt (pathTransformD n p)) }

/-- Checks that every record's parent name is either empty or the name of a
record already emitted (parent written before its children). -/
def parentLinked : List String → List SkelEntry → Bool
  | _, [] => true
  | seen, e :: es =>
    (e.parentName == "" || seen.contains e.parentName) && parentLinked (e.name :: seen) es

/-- Vertex attribute semantic tags of the engine format. -/
inductive VertexAttributeDef where
  | POSITION
  | FLOAT1
  | FLOAT2
  | FLOAT3
  | FLOAT4
  | INT1
  | INT2
  | INT3
  | INT4
  | SHORT2
  | SHORT4
  | BYTE4
  | NONE
deriving DecidableEq, Repr

/-- Skinned vertex stride in bytes, `SKINNED_VERTEX_SIZE`. -/
def SKINNED_VERTEX_SIZE : ℕ := 56

/-- Rigid vertex stride in bytes, `RIGID_VERTEX_SIZE`. -/
def RIGID_VERTEX_SIZE : ℕ := 24

/-- Vertex layout selector, from `getVertexSize`: skinned iff the root node
has at least one child. -/
def getVertexSize (scene : AiScene) : ℕ :=
  if 0 < scene.rootNode.children.length then SKINNED_VERTEX_SIZE else RIGID_VERTEX_SIZE

/-- Attribute descriptors emitted for the rigid layout (the four trailing
`writeAttribute` calls of `writeMeshes`). -/
def rigidAttributes : List (String × VertexAttributeDef) :=
  [("in_position", .POSITION), ("in_normal", .BYTE4),
   ("in_tangents", .BYTE4), ("in_tex_coords", .SHORT2)]

/-- Attribute descriptors emitted for the skinned layout: the two leading
skin attributes followed by the common four. -/
def skinnedAttributes : List (String × VertexAttributeDef) :=
  [("in_weights", .FLOAT4), ("in_indices", .INT4)] ++ rigidAttributes

/-- One entry of the per-submesh descriptor table written by `writeMeshes`
(field order follows the byte order of the artifact). -/
structure SubmeshDesc where
  materialName : String
  vertexByteOffset : ℤ
  vertexByteSize : ℤ
  indexOffset : ℤ
  triangleCount : ℤ
  meshName : String
  attributeCount : ℤ
  attributes : List (String × VertexAttributeDef)
deriving DecidableEq, Repr

/-- Loop body of `writeMeshes`: walks the meshes carrying the running
`attribute_array_offset` and `indices_offset` accumulators (both `int32_t`,
hence wrapped at every store and update). -/
def writeMeshesAux (materials : List String) (vs : ℕ) :
    List AiMesh → ℤ → ℤ → List SubmeshDesc
  | [], _, _ => []
  | m :: ms, aoff, ioff =>
    let matName := (materials.get? m.materialIndex).getD ""
    let asize := wrap32 ((m.vertices.length * vs : ℕ) : ℤ)
    { materialName := matName
    , vertexByteOffset := aoff
    , vertexByteSize := asize
    , indexOffset := ioff
    , triangleCount := wrap32 ((m.faces.length : ℕ) : ℤ)
    , meshName := matName
    , attributeCount := if vs = SKINNED_VERTEX_SIZE then 6 else 4
    , attributes := if vs = SKINNED_VERTEX_SIZE then skinnedAttributes else rigidAttributes }
    :: writeMeshesAux materials vs ms (wrap32 (aoff + asize))
        (wrap32 (ioff + ((m.faces.length * 3 : ℕ) : ℤ)))

/-- Submesh descriptor table of the scene, from `writeMeshes` (both
accumulators start at zero). -/
def writeMeshes (scene : AiScene) : List SubmeshDesc :=
  writeMeshesAux scene.materials (getVertexSize scene) scene.meshes 0 0

/-- Leading `int32 mesh_count` of the descriptor table. -/
def writeMeshesCount (scene : AiScene) : ℤ :=
  wrap32 ((scene.meshes.length : ℕ) : ℤ)

/-- Total index count written at the head of the geometry block, from the
first loop of `writeGeometry` (`indices_count += mNumFaces * 3` on an
`int32_t`). -/
def geomIndexCount (scene : AiScene) : ℤ :=
  scene.meshes.foldl (fun acc m => wrap32 (acc + ((m.faces.length * 3 : ℕ) : ℤ))) 0

/-- Total vertex-buffer byte size written before the packed vertex buffer,
from the first loop of `writeGeometry`
(`vertices_size += mNumVertices * vertex_size` on an `int32_t`). -/
def geomVertexBufferSize (scene : AiScene) : ℤ :=
  scene.meshes.foldl
    (fun acc m => wrap32 (acc + ((m.vertices.length * getVertexSize scene : ℕ) : ℤ))) 0

/-- Packed 4-byte normal of `writeGeometry`: signed-byte tuple
`((int8_t)(n.x*127), (int8_t)(n.z*127), (int8_t)(n.y*127), 0)`. -/
def packNormalBytes (n : AiVec3) : ℤ × ℤ × ℤ × ℤ :=
  (truncQ (n.x * 127), truncQ (n.z * 127), truncQ (n.y * 127), 0)

/-- Packed 4-byte tangent of `writeGeometry`: same expression as the
normal, applied to `mTangents[j]`. -/
def packTangentBytes (t : AiVec3) : ℤ × ℤ × ℤ × ℤ :=
  (truncQ (t.x * 127), truncQ (t.z * 127), truncQ (t.y * 127), 0)

/-- Specification-side byte tuple `(v.x*127, v.y*127, v.z*127, 0)` of a
vector, components in their own order. -/
def byteTuple127 (v : AiVec3) : ℤ × ℤ × ℤ × ℤ :=
  (truncQ (v.x * 127), truncQ (v.y * 127), truncQ (v.z * 127), 0)

/-- Specification-side swap of the Y and Z components. -/
def swapYZ (v : AiVec3) : AiVec3 := ⟨v.x, v.z, v.y⟩

/-- LOD trailer written by `saveLumixMesh` after the skeleton block:
`int32 lod_count = 1`, `int32 to_mesh = mNumMeshes - 1` (unsigned
subtraction stored into an `int32_t`), `float distance = FLT_MAX`. -/
def lodTrailer (scene : AiScene) : ℤ × ℤ × F32 :=
  (1, wrap32 (((scene.meshes.length : ℕ) : ℤ) - 1), F32.finite fltMaxQ)

/-- Per-vertex influence record, from `struct SkinInfo`: the constructor
zeroes the whole struct, so both 4-element arrays start as zeros and the
next-free-slot counter starts at 0. -/
structure SkinInfo where
  weights : List ℚ
  boneIndices : List ℤ
  index : ℕ
deriving DecidableEq, Repr

/-- Zero-initialized `SkinInfo()`. -/
def mkSkinInfo : SkinInfo := ⟨[0, 0, 0, 0], [0, 0, 0, 0], 0⟩

/-- In-bounds array store: `none` models an out-of-bounds write, which in
the C++ source is undefined behavior. -/
def setNth? {α : Type} (l : List α) (i : ℕ) (a : α) : Option (List α) :=
  if i < l.length then some (l.set i a) else none

/-- First index of a name in the flattened node-name list, `-1` when
absent, from `QVector<QString>::indexOf`. -/
def indexOfName (names : List String) (s : String) : ℤ :=
  match names.findIdx? (fun t => t == s) with
  | some i => (i : ℤ)
  | none => -1

/-- Body of the innermost loop of `fillSkinInfo`: store the pair
`(weight, bone index)` into the target vertex's next influence slot and
bump the slot counter. Every array access is bounds-checked by the model;
the source performs none of these checks. -/
def applySkinWeight (boneIndex : ℤ) (offset : ℕ) (infos : List SkinInfo)
    (w : AiVertexWeight) : Option (List SkinInfo) :=
  match infos.get? (offset + w.vertexId) with
  | none => none
  | some info =>
    match setNth? info.weights info.index w.weight,
          setNth? info.boneIndices info.index boneIndex with
    | some ws, some bs =>
      some (infos.set (offset + w.vertexId) ⟨ws, bs, info.index + 1⟩)
    | _, _ => none

/-- Middle loop of `fillSkinInfo`: one bone's weight list. -/
def applyBone (names : List String) (offset : ℕ) (infos : List SkinInfo)
    (b : AiBone) : Option (List SkinInfo) :=
  b.weights.foldlM (applySkinWeight (indexOfName names b.name) offset) infos

/-- All bones of one mesh. -/
def applyMeshBones (names : List String) (infos : List SkinInfo) (offset : ℕ)
    (m : AiMesh) : Option (List SkinInfo) :=
  m.bones.foldlM (applyBone names offset) infos

/-- Outer loop of `fillSkinInfo`: meshes in order, with the running global
vertex offset. -/
def fillSkinInfoAux (names : List String) :
    List AiMesh → ℕ → List SkinInfo → Option (List SkinInfo)
  | [], _, infos => some infos
  | m :: ms, offset, infos =>
    match applyMeshBones names infos offset m with
    | none => none
    | some infos2 => fillSkinInfoAux names ms (offset + m.vertices.length) infos2

/-- Skin aggregator, from `fillSkinInfo` as called by `writeGeometry`: the
vertex count is `vertices_size / vertex_size`, the influence table starts
as zero-initialized records. -/
def fillSkinInfo (scene : AiScene) : Option (List SkinInfo) :=
  let names := getBoneNames scene
  let count := ((geomVertexBufferSize scene) / ((getVertexSize scene : ℕ) : ℤ)).toNat
  fillSkinInfoAux names scene.meshes 0 (List.replicate count mkSkinInfo)

/-- Key-scan loop of `getPosition`:
`while (frame > keys[i].mTime && i < num) ++i;`. The time of `keys[i]` is
read before the bound is tested, so once `i` reaches the key count the read
is out of bounds (`none`). The walk over the remaining keys carries the
running index `i`. -/
def scanKeyIdx (frame : ℚ) : List AiVectorKey → ℕ → Option ℕ
  | [], _ => none
  | k :: rest, i => if frame > k.time then scanKeyIdx frame rest (i + 1) else some i

/-- Position sampler, from `getPosition`: scan for the key index, return
that key's value when it is the last key, otherwise blend it with the next
key at parameter `t = (frame - keys[i].time) / (keys[i+1].time - keys[i].time)`
(`first *= 1-t; second *= t; first += second`). `none` models the
out-of-bounds key reads of the source. -/
def getPosition (channel : AiNodeAnim) (frame : ℚ) : Option AiVec3 :=
  match scanKeyIdx frame channel.positionKeys 0 with
  | none => none
  | some i =>
    match channel.positionKeys.get? i with
    | none => none
    | some ki =>
      if i + 1 = channel.positionKeys.length then some ki.value
      else
        match channel.positionKeys.get? (i + 1) with
        | none => none
        | some ki1 =>
          let t := (frame - ki.time) / (ki1.time - ki.time)
          some ⟨ki.value.x * (1 - t) + ki1.value.x * t,
                ki.value.y * (1 - t) + ki1.value.y * t,
                ki.value.z * (1 - t) + ki1.value.z * t⟩

/-- One bit-level round of the CRC division. -/
def crc32Round (c : ℕ) : ℕ :=
  if c % 2 = 1 then (c / 2) ^^^ 0xEDB88320 else c / 2

/-- One input byte folded into the running CRC register. -/
def crc32Byte (c b : ℕ) : ℕ := crc32Round^[8] (c ^^^ (b % 256))

/-- Modelled from the spec: the hash `crc32` used by `importAnimation` is
declared in `core/crc32.h`, which is not under `src/`; the spec describes it
as "a standard cyclic-redundancy-style string hash" that is "a pure
function of the bone name string". Modelled as reflected CRC-32
(polynomial `0xEDB88320`) over the string's code points reduced to bytes
(bone names travel through Latin-1 in the source). -/
def crc32 (s : String) : ℕ :=
  0xFFFFFFFF ^^^ (s.data.foldl (fun c ch => crc32Byte c (ch.toNat % 256)) 0xFFFFFFFF)

/-- Fields of one animation artifact relevant to the header and the
trailing hash table, from `importAnimation`: fps (25 when the clip reports
0), `int32 frame_count` (truncated clip duration), `int32 bone_count`
(channel count), and the bone-name hash table, one entry per name of the
flattened node-name list `getBoneNames`. The sampled position/rotation
arrays sit between `bone_count` and the hash table; their per-key sampling
is modelled by `getPosition`. -/
structure AniArtifact where
  fps : ℚ
  frameCount : ℤ
  boneCount : ℤ
  boneHashes : List ℕ
deriving DecidableEq, Repr

/-- Animation artifact emission, from `importAnimation`. -/
def importAnimationArtifact (scene : AiScene) (anim : AiAnimation) : AniArtifact :=
  { fps := if anim.ticksPerSecond = 0 then 25 else anim.ticksPerSecond
  , frameCount := wrap32 (truncQ anim.duration)
  , boneCount := wrap32 ((anim.channels.length : ℕ) : ℤ)
  , boneHashes := (getBoneNames scene).map crc32 }

/-- Environment of one material of the material pass: whether its `.mat`
file opens, how many diffuse texture slots the material reports, and the
outcome of processing diffuse texture 0 (the loop queries slot 0 on every
iteration). -/
structure MaterialJob where
  canOpen : Bool
  textureCount : ℕ
  tex0IsDds : Bool
  tex0WriteOk : Bool
  tex0CopyOk : Bool
deriving DecidableEq, Repr

/-- Outcome of one texture iteration of `saveLumixMaterials`: the DDS
conversion branch when conversion is requested and the suffix is not
already `dds`, the plain copy branch otherwise. -/
def textureStepOk (convertToDDS : Bool) (m : MaterialJob) : Bool :=
  if convertToDDS && !m.tex0IsDds then m.tex0WriteOk else m.tex0CopyOk

/-- One iteration of the material loop of `saveLumixMaterials`, threading
the aggregate `success` flag: an unopenable file sets it to false, a failed
texture step sets it to false, and in every case the loop continues. -/
def processMaterial (convertToDDS : Bool) (success : Bool) (m : MaterialJob) : Bool :=
  if m.canOpen then
    (List.range m.textureCount).foldl
      (fun s _ => if textureStepOk convertToDDS m then s else false) success
  else false

/-- Material pass, from `saveLumixMaterials`: immediately true when
material import is off, otherwise the fold of the per-material loop over
every material, starting from `success = true`. -/
def saveLumixMaterials (importMaterials convertToDDS : Bool)
    (mats : List MaterialJob) : Bool :=
  if importMaterials then mats.foldl (processMaterial convertToDDS) true else true

/-- Specification-side success of one material: its file opens and, when it
has texture slots, the (repeated) texture-0 step succeeds. -/
def materialOkSpec (convertToDDS : Bool) (m : MaterialJob) : Bool :=
  m.canOpen && (m.textureCount == 0 || textureStepOk convertToDDS m)

/-- Mesh writer outcome, from `saveLumixMesh`: the function returns false
exactly when the destination file fails to open (every later write is
unchecked). -/
def saveLumixMeshOk (meshFileOpens : Bool) : Bool := meshFileOpens

/-- What `ImportThread::run` did after a successful scene load: whether the
material pass was entered, and its aggregate result when it was. -/
structure RunTrace where
  materialsEntered : Bool
  materialsResult : Option Bool
deriving DecidableEq, Repr

/-- Saving stage of `ImportThread::run` (scene already loaded): the
material pass runs only when `saveLumixMesh()` returned true. -/
def runImport (meshFileOpens importMaterials convertToDDS : Bool)
    (mats : List MaterialJob) : RunTrace :=
  if saveLumixMeshOk meshFileOpens then
    ⟨true, some (saveLumixMaterials importMaterials convertToDDS mats)⟩
  else ⟨false, none⟩

/-- Channel of the interpolation example of the spec: position keys
`{t=0: (0,0,0), t=10: (10,0,0)}`. -/
def c1Channel : AiNodeAnim :=
  ⟨"bone", [⟨0, ⟨0, 0, 0⟩⟩, ⟨10, ⟨10, 0, 0⟩⟩]⟩

/-- Bones of the skin-overflow scene: `n` bones, each contributing one
weight to vertex 0. -/
def c2Bones (n : ℕ) : List AiBone :=
  List.replicate n ⟨"n", [⟨0, 1⟩]⟩

/-- One-vertex mesh whose vertex 0 is influenced by `n` bones. -/
def c2Mesh (n : ℕ) : AiMesh :=
  ⟨[⟨0, 0, 0⟩], [⟨0, 1, 0⟩], [⟨1, 0, 0⟩], [(0, 0)], [], 0, c2Bones n⟩

/-- Scene around `c2Mesh`. -/
def c2Scene (n : ℕ) : AiScene :=
  ⟨⟨"n", mat4Id, []⟩, [c2Mesh n], ["mat"], []⟩

/-- Two-submesh rigid scene used as concrete input: first mesh has two
vertices and two triangles, second mesh one vertex and one triangle. -/
def wMesh1 : AiMesh :=
  ⟨[⟨0, 0, 0⟩, ⟨1, 0, 0⟩], [⟨0, 1, 0⟩, ⟨0, 1, 0⟩], [⟨1, 0, 0⟩, ⟨1, 0, 0⟩],
   [(0, 0), (1, 1)], [(0, 1, 0), (1, 0, 1)], 0, []⟩

/-- Second mesh of the two-submesh scene. -/
def wMesh2 : AiMesh :=
  ⟨[⟨0, 0, 1⟩], [⟨0, 1, 0⟩], [⟨1, 0, 0⟩], [(0, 0)], [(0, 0, 0)], 0, []⟩

/-- Two-submesh rigid scene (childless root, so the rigid 24-byte layout is
selected). -/
def wScene : AiScene :=
  ⟨⟨"r", mat4Id, []⟩, [wMesh1, wMesh2], ["mat"], []⟩

/-- Two-node scene (root `A` with single child `B`) whose only clip
animates one channel. -/
def c4Anim : AiAnimation :=
  ⟨"clip", 25, 10, [⟨"B", [⟨0, ⟨0, 0, 0⟩⟩]⟩]⟩

/-- Scene around `c4Anim`. -/
def c4Scene : AiScene :=
  ⟨⟨"A", mat4Id, [⟨"B", mat4Id, []⟩]⟩, [], [], [c4Anim]⟩

/-- C1: the claim says that sampling frame 5 of the channel with position
keys `{t=0: (0,0,0), t=10: (10,0,0)}` yields the interpolated `(5,0,0)`,
and that frame 15 (beyond the last key) yields the final key `(10,0,0)`.
The scan loop of `getPosition` advances while `frame > keys[i].time`, so it
stops at the upper bracketing key instead of the lower one: frame 5
returns the last key's value `(10,0,0)` unmixed, and frame 15 runs the
scan past the last key, reading `keys[2]` out of bounds (`none`). -/
theorem c1_getPosition_interpolation_bug :
    getPosition c1Channel 5 = some ⟨10, 0, 0⟩
    ∧ getPosition c1Channel 5 ≠ some ⟨5, 0, 0⟩
    ∧ getPosition c1Channel 15 = none := by
  decide

/-- C2: the claim says the per-vertex influence counter is capped at 4 and
a 5th contributing bone is silently dropped, every slot write staying
inside the 4-element arrays. `fillSkinInfo` has no such cap: with exactly
4 influences the table fills normally (trailing zeros in untouched slots),
but the 5th influence stores through slot index 4 of the 4-element weight
array — an out-of-bounds write (`none`), not a silent drop. -/
theorem c2_fillSkinInfo_overflow :
    fillSkinInfo (c2Scene 2) = some [⟨[1, 1, 0, 0], [0, 0, 0, 0], 2⟩]
    ∧ fillSkinInfo (c2Scene 4) = some [⟨[1, 1, 1, 1], [0, 0, 0, 0], 4⟩]
    ∧ fillSkinInfo (c2Scene 5) = none := by
  decide

/-- C7: for every vertex the packed 4-byte normal of `writeGeometry` is the
byte tuple `(x*127, z*127, y*127, 0)`, i.e. the plain `*127` byte tuple of
the source normal with its Y and Z components swapped; the tangent is
packed by the identical expression; and the normal `(0,1,0)` packs to
`(0, 0, 127, 0)`. -/
theorem c7_normal_packing :
    (∀ v : AiVec3, packNormalBytes v = byteTuple127 (swapYZ v))
    ∧ (∀ v : AiVec3, packTangentBytes v = packNormalBytes v)
    ∧ packNormalBytes ⟨0, 1, 0⟩ = (0, 0, 127, 0) := by
  refine ⟨fun v => rfl, fun v => rfl, ?_⟩
  norm_num [packNormalBytes, truncQ]

/-- C5 counterexample: the claim says the trailer's `float32 distance` is
`+infinity`; on the concrete two-submesh scene the emitted distance is the
finite value `FLT_MAX`, not positive infinity. -/
theorem c5_distance_counterexample :
    (lodTrailer wScene).2.2 = F32.finite fltMaxQ
    ∧ (lodTrailer wScene).2.2 ≠ F32.posInf := by
  exact ⟨rfl, by decide⟩

/-- C5 amended: the mesh artifact's trailer after the skeleton block is
`int32 lod_count = 1`, `int32 to_submesh_index = submesh_count - 1`, and
`float32 distance = FLT_MAX` (the largest finite float, not infinity),
whenever the mesh count fits in an `int32`. -/
theorem c5_lod_trailer (scene : AiScene) (h : scene.meshes.length < 2147483648) :
    lodTrailer scene = (1, writeMeshesCount scene - 1, F32.finite fltMaxQ) := by
  have h1 : wrap32 (((scene.meshes.length : ℕ) : ℤ) - 1)
      = ((scene.meshes.length : ℕ) : ℤ) - 1 :=
    wrap32_eq_self (by omega) (by omega)
  have h2 := wrap32_coe_nat h
  simp [lodTrailer, writeMeshesCount, h1, h2]

/-- Witness for the amended C5 statement at the concrete two-submesh
scene. -/
theorem c5_lod_trailer_witness :
    wScene.meshes.length < 2147483648
    ∧ lodTrailer wScene = (1, writeMeshesCount wScene - 1, F32.finite fltMaxQ) :=
  ⟨by decide, c5_lod_trailer wScene (by decide)⟩

/-- Attribute lists emitted by the descriptor loop depend only on the
scene-wide vertex size. -/
theorem writeMeshesAux_attrs (mats : List String) (vs : ℕ) :
    ∀ (ms : List AiMesh) (aoff ioff : ℤ),
      (writeMeshesAux mats vs ms aoff ioff).map (fun d => d.attributes)
        = List.replicate ms.length
            (if vs = SKINNED_VERTEX_SIZE then skinnedAttributes else rigidAttributes) := by
  intro ms
  induction ms with
  | nil => intro aoff ioff; rfl
  | cons m ms ih =>
    intro aoff ioff
    simp only [writeMeshesAux, List.map_cons, List.length_cons, List.replicate_succ, ih]

/-- Attribute counts emitted by the descriptor loop depend only on the
scene-wide vertex size. -/
theorem writeMeshesAux_attr_count (mats : List String) (vs : ℕ) :
    ∀ (ms : List AiMesh) (aoff ioff : ℤ),
      (writeMeshesAux mats vs ms aoff ioff).map (fun d => d.attributeCount)
        = List.replicate ms.length (if vs = SKINNED_VERTEX_SIZE then (6 : ℤ) else 4) := by
  intro ms
  induction ms with
  | nil => intro aoff ioff; rfl
  | cons m ms ih =>
    intro aoff ioff
    simp only [writeMeshesAux, List.map_cons, List.length_cons, List.replicate_succ, ih]

/-- C6: if the root node has one or more children the stride is 56 bytes
and every submesh emits exactly the six skinned attribute descriptors, in
order; otherwise the stride is 24 bytes and every submesh emits exactly the
trailing four; the selection is scene-wide (the same for every mesh). -/
theorem c6_layout_selection (scene : AiScene) :
    getVertexSize scene
      = (if scene.rootNode.children.length = 0 then 24 else 56)
    ∧ (writeMeshes scene).map (fun d => d.attributes)
      = List.replicate scene.meshes.length
          (if scene.rootNode.children.length = 0 then rigidAttributes else skinnedAttributes)
    ∧ (writeMeshes scene).map (fun d => d.attributeCount)
      = List.replicate scene.meshes.length
          (if scene.rootNode.children.length = 0 then (4 : ℤ) else 6)
    ∧ skinnedAttributes
      = [("in_weights", .FLOAT4), ("in_indices", .INT4), ("in_position", .POSITION),
         ("in_normal", .BYTE4), ("in_tangents", .BYTE4), ("in_tex_coords", .SHORT2)]
    ∧ rigidAttributes = skinnedAttributes.drop 2 := by
  rcases Nat.eq_zero_or_pos scene.rootNode.children.length with h | h
  · refine ⟨?_, ?_, ?_, rfl, rfl⟩ <;>
      simp [writeMeshes, writeMeshesAux_attrs, writeMeshesAux_attr_count, getVertexSize,
        SKINNED_VERTEX_SIZE, RIGID_VERTEX_SIZE, h]
  · have h' : scene.rootNode.children.length ≠ 0 := Nat.pos_iff_ne_zero.mp h
    refine ⟨?_, ?_, ?_, rfl, rfl⟩ <;>
      simp [writeMeshes, writeMeshesAux_attrs, writeMeshesAux_attr_count, getVertexSize,
        SKINNED_VERTEX_SIZE, RIGID_VERTEX_SIZE, h, h']

theorem foldl_keep {α : Type} (l : List α) (s : Bool) :
    l.foldl (fun s2 _ => s2) s = s := by
  induction l generalizing s <;> simp_all [List.foldl_cons]

/-- One material iteration ANDs the aggregate flag with that material's own
success. -/
theorem processMaterial_eq (c : Bool) (s : Bool) (m : MaterialJob) :
    processMaterial c s m = (s && materialOkSpec c m) := by
  unfold processMaterial materialOkSpec
  cases hco : m.canOpen
  · simp
  · cases ht : textureStepOk c m
    · cases htc : m.textureCount with
      | zero => simp [htc]
      | succ n => simp [htc, List.range_succ, List.foldl_append]
    · simp [foldl_keep]

/-- The material fold never stops early: its aggregate equals the
conjunction over every material. -/
theorem saveLumixMaterials_foldl (c : Bool) (mats : List MaterialJob) :
    ∀ s : Bool, mats.foldl (processMaterial c) s = (s && mats.all (materialOkSpec c)) := by
  induction mats with
  | nil => intro s; simp
  | cons m ms ih =>
    intro s
    simp [List.foldl_cons, List.all_cons, processMaterial_eq, ih, Bool.and_assoc]

/-- C9: if the mesh/skeleton write fails (its destination file does not
open), `run` never enters the material pass; within the material pass
every material is processed — the aggregate equals the conjunction over
the full material list, so one failure does not stop the rest — and the
aggregate is false exactly when some material's file open or texture step
failed. -/
theorem c9_error_policy :
    (∀ importM convert mats, runImport false importM convert mats = ⟨false, none⟩)
    ∧ (∀ convert mats,
        saveLumixMaterials true convert mats = mats.all (materialOkSpec convert))
    ∧ (∀ convert mats,
        saveLumixMaterials true convert mats
          = !(mats.any fun m => !materialOkSpec convert m)) := by
  have hall : ∀ convert (mats : List MaterialJob),
      saveLumixMaterials true convert mats = mats.all (materialOkSpec convert) := by
    intro convert mats
    simp [saveLumixMaterials, saveLumixMaterials_foldl]
  refine ⟨fun importM convert mats => rfl, hall, fun convert mats => ?_⟩
  rw [hall]
  induction mats with
  | nil => rfl
  | cons m ms ih => simp [List.all_cons, List.any_cons, ih, Bool.not_or]

/-- An `int32` accumulation of non-negative summands equals the exact sum
while the total stays below `2^31`. -/
theorem foldl_wrap32_sum (g : AiMesh → ℕ) :
    ∀ (ms : List AiMesh) (s : ℕ), s + (ms.map g).sum < 2147483648 →
      ms.foldl (fun acc m => wrap32 (acc + ((g m : ℕ) : ℤ))) ((s : ℕ) : ℤ)
        = ((s + (ms.map g).sum : ℕ) : ℤ) := by
  intro ms
  induction ms with
  | nil => intro s h; simp
  | cons m ms ih =>
    intro s h
    simp only [List.map_cons, List.sum_cons] at h ⊢
    have hw : wrap32 (((s : ℕ) : ℤ) + ((g m : ℕ) : ℤ)) = ((s + g m : ℕ) : ℤ) := by
      rw [show ((s + g m : ℕ) : ℤ) = ((s : ℕ) : ℤ) + ((g m : ℕ) : ℤ) by push_cast; ring]
      exact wrap32_eq_self (by omega) (by omega)
    simp only [List.foldl_cons]
    rw [hw, ih (s + g m) (by omega)]
    omega

/-- Sum of `triangle_count * 3` over the emitted descriptor table equals
the exact total index count while it stays below `2^31`. -/
theorem writeMeshesAux_tri_sum (mats : List String) (vs : ℕ) :
    ∀ (ms : List AiMesh) (aoff ioff : ℤ),
      (ms.map fun m => m.faces.length * 3).sum < 2147483648 →
      ((writeMeshesAux mats vs ms aoff ioff).map fun d => d.triangleCount * 3).sum
        = (((ms.map fun m => m.faces.length * 3).sum : ℕ) : ℤ) := by
  intro ms
  induction ms with
  | nil => intro aoff ioff h; simp [writeMeshesAux]
  | cons m ms ih =>
    intro aoff ioff h
    simp only [List.map_cons, List.sum_cons] at h
    have hf : m.faces.length < 2147483648 := by omega
    rw [writeMeshesAux]
    simp only [List.map_cons]
    rw [List.sum_cons, wrap32_coe_nat hf, ih _ _ (by omega)]
    push_cast
    rw [List.map_cons, List.sum_cons]
    push_cast
    ring

/-- Sum of `vertex_byte_size` over the emitted descriptor table equals the
exact total vertex-buffer size while it stays below `2^31`. -/
theorem writeMeshesAux_vsize_sum (mats : List String) (vs : ℕ) :
    ∀ (ms : List AiMesh) (aoff ioff : ℤ),
      (ms.map fun m => m.vertices.length * vs).sum < 2147483648 →
      ((writeMeshesAux mats vs ms aoff ioff).map fun d => d.vertexByteSize).sum
        = (((ms.map fun m => m.vertices.length * vs).sum : ℕ) : ℤ) := by
  intro ms
  induction ms with
  | nil => intro aoff ioff h; simp [writeMeshesAux]
  | cons m ms ih =>
    intro aoff ioff h
    simp only [List.map_cons, List.sum_cons] at h
    have hv : m.vertices.length * vs < 2147483648 := by omega
    rw [writeMeshesAux]
    simp only [List.map_cons]
    rw [List.sum_cons, wrap32_coe_nat hv, ih _ _ (by omega)]
    push_cast
    rw [List.map_cons, List.sum_cons]
    push_cast
    ring

/-- C10: the `int32 index_count` at the head of the geometry block equals
the sum of `triangle_count × 3` over the descriptor table, and the
`int32 vertex_buffer_byte_size` before the packed vertex buffer equals the
sum of `vertex_byte_size` over the table, although the two passes compute
the totals independently (as long as each total fits in an `int32`). -/
theorem c10_geometry_table_consistency (scene : AiScene)
    (h1 : (scene.meshes.map fun m => m.faces.length * 3).sum < 2147483648)
    (h2 : (scene.meshes.map fun m => m.vertices.length * getVertexSize scene).sum
      < 2147483648) :
    geomIndexCount scene = ((writeMeshes scene).map fun d => d.triangleCount * 3).sum
    ∧ geomVertexBufferSize scene
      = ((writeMeshes scene).map fun d => d.vertexByteSize).sum := by
  constructor
  · rw [writeMeshes,
      writeMeshesAux_tri_sum scene.materials (getVertexSize scene) scene.meshes 0 0 h1]
    have := foldl_wrap32_sum (fun m => m.faces.length * 3) scene.meshes 0 (by omega)
    simpa [geomIndexCount] using this
  · rw [writeMeshes,
      writeMeshesAux_vsize_sum scene.materials (getVertexSize scene) scene.meshes 0 0 h2]
    have := foldl_wrap32_sum (fun m => m.vertices.length * getVertexSize scene)
      scene.meshes 0 (by omega)
    simpa [geomVertexBufferSize] using this

/-- Witness for C10 at the concrete two-submesh scene. -/
theorem c10_geometry_table_consistency_witness :
    (wScene.meshes.map fun m => m.faces.length * 3).sum < 2147483648
    ∧ (wScene.meshes.map fun m => m.vertices.length * getVertexSize wScene).sum
        < 2147483648
    ∧ (geomIndexCount wScene
        = ((writeMeshes wScene).map fun d => d.triangleCount * 3).sum
      ∧ geomVertexBufferSize wScene
        = ((writeMeshes wScene).map fun d => d.vertexByteSize).sum) :=
  ⟨by decide, by decide, c10_geometry_table_consistency wScene (by decide) (by decide)⟩

/-- Field-level characterization of the emitted descriptor table: while the
running totals stay below `2^31`, submesh `i` carries the exact byte offset
(sum over the preceding meshes of `vertex_count * stride`), its own byte
size, and the running index offset, which is `3 ×` the preceding triangle
count (an offset in indices, not in triangles). -/
theorem writeMeshesAux_offsets (mats : List String) (vs : ℕ) :
    ∀ (ms : List AiMesh) (aoff ioff : ℕ),
      aoff + (ms.map fun m => m.vertices.length * vs).sum < 2147483648 →
      ioff + (ms.map fun m => m.faces.length * 3).sum < 2147483648 →
      (writeMeshesAux mats vs ms ((aoff : ℕ) : ℤ) ((ioff : ℕ) : ℤ)).map
          (fun d => (d.vertexByteOffset, d.vertexByteSize, d.indexOffset))
        = (List.range ms.length).map (fun i =>
            (((aoff + ((ms.take i).map fun m => m.vertices.length * vs).sum : ℕ) : ℤ),
             (((ms.getD i dummyMesh).vertices.length * vs : ℕ) : ℤ),
             ((ioff + ((ms.take i).map fun m => m.faces.length).sum * 3 : ℕ) : ℤ))) := by
  intro ms
  induction ms with
  | nil => intro aoff ioff h1 h2; simp [writeMeshesAux]
  | cons m ms ih =>
    intro aoff ioff h1 h2
    simp only [List.map_cons, List.sum_cons] at h1 h2
    have hv : m.vertices.length * vs < 2147483648 := by omega
    rw [writeMeshesAux]
    simp only [List.map_cons]
    rw [wrap32_coe_nat hv]
    rw [List.length_cons, List.range_succ_eq_map, List.map_cons]
    have e1 : wrap32 (((aoff : ℕ) : ℤ) + ((m.vertices.length * vs : ℕ) : ℤ))
        = ((aoff + m.vertices.length * vs : ℕ) : ℤ) := by
      push_cast
      exact wrap32_eq_self (by omega) (by omega)
    have e2 : wrap32 (((ioff : ℕ) : ℤ) + ((m.faces.length * 3 : ℕ) : ℤ))
        = ((ioff + m.faces.length * 3 : ℕ) : ℤ) := by
      push_cast
      exact wrap32_eq_self (by omega) (by omega)
    simp only [List.cons.injEq]
    refine ⟨by simp, ?_⟩
    rw [e1, e2,
        ih (aoff + m.vertices.length * vs) (ioff + m.faces.length * 3) (by omega) (by omega),
        List.map_map]
    apply List.map_congr_left
    intro i hi
    simp only [Function.comp_apply, List.take_succ_cons, List.map_cons, List.sum_cons,
      List.getD_cons_succ, Prod.mk.injEq]
    refine ⟨?_, ?_, ?_⟩ <;> first
    | exact trivial
    | (push_cast; ring)

/-- C3 counterexample: the claim says the emitted `int32 index_offset` is
measured in triangles, equalling the total triangle count of the preceding
submeshes. On the concrete two-submesh scene the first submesh has 2
triangles, yet the second submesh's emitted `index_offset` is 6 (the
preceding index count), not 2. -/
theorem c3_index_offset_counterexample :
    ((writeMeshes wScene).get? 1).map (fun d => d.indexOffset) = some 6
    ∧ ((wScene.meshes.take 1).map fun m => m.faces.length).sum = 2
    ∧ ¬ ((writeMeshes wScene).get? 1).map (fun d => d.indexOffset) = some 2 := by
  decide

/-- C3 amended: for every submesh `i`, `vertex_byte_offset` equals the sum
over the preceding submeshes of `vertex_count × stride` and
`vertex_byte_size` equals that submesh's `vertex_count × stride`, as
claimed; but `index_offset` is measured in indices: it equals `3 ×` the
total triangle count of the preceding submeshes (whenever both running
totals fit in an `int32`). -/
theorem c3_descriptor_offsets (scene : AiScene)
    (h1 : (scene.meshes.map fun m => m.vertices.length * getVertexSize scene).sum
      < 2147483648)
    (h2 : (scene.meshes.map fun m => m.faces.length * 3).sum < 2147483648) :
    (writeMeshes scene).map (fun d => (d.vertexByteOffset, d.vertexByteSize, d.indexOffset))
      = (List.range scene.meshes.length).map (fun i =>
          (((((scene.meshes.take i).map fun m =>
                m.vertices.length * getVertexSize scene).sum : ℕ) : ℤ),
           (((scene.meshes.getD i dummyMesh).vertices.length * getVertexSize scene : ℕ) : ℤ),
           ((((scene.meshes.take i).map fun m => m.faces.length).sum * 3 : ℕ) : ℤ))) := by
  have := writeMeshesAux_offsets scene.materials (getVertexSize scene) scene.meshes 0 0
    (by omega) (by omega)
  simpa [writeMeshes] using this

/-- Witness for the amended C3 statement at the concrete two-submesh
scene. -/
theorem c3_descriptor_offsets_witness :
    ((wScene.meshes.map fun m => m.vertices.length * getVertexSize wScene).sum
      < 2147483648)
    ∧ ((wScene.meshes.map fun m => m.faces.length * 3).sum < 2147483648)
    ∧ (writeMeshes wScene).map (fun d => (d.vertexByteOffset, d.vertexByteSize, d.indexOffset))
      = (List.range wScene.meshes.length).map (fun i =>
          (((((wScene.meshes.take i).map fun m =>
                m.vertices.length * getVertexSize wScene).sum : ℕ) : ℤ),
           (((wScene.meshes.getD i dummyMesh).vertices.length * getVertexSize wScene : ℕ) : ℤ),
           ((((wScene.meshes.take i).map fun m => m.faces.length).sum * 3 : ℕ) : ℤ))) :=
  ⟨by decide, by decide, c3_descriptor_offsets wScene (by decide) (by decide)⟩

/-- Structural induction principle for the node tree: to prove a property
of every node it suffices to prove it for a node assuming it for each of
its children. -/
theorem aiNode_ind (P : AiNode → Prop)
    (h : ∀ nm tr cs, (∀ c ∈ cs, P c) → P ⟨nm, tr, cs⟩) : ∀ n, P n := by
  suffices H : ∀ d n, sizeOf n ≤ d → P n by
    intro n; exact H (sizeOf n) n le_rfl
  intro d
  induction d with
  | zero =>
    intro n hn
    cases n with
    | mk nm tr cs => simp at hn
  | succ d ih =>
    intro n hn
    cases n with
    | mk nm tr cs =>
      refine h nm tr cs (fun c hc => ih c ?_)
      have h1 : sizeOf c < sizeOf cs := List.sizeOf_lt_of_mem hc
      have h2 : sizeOf (AiNode.mk nm tr cs) = 1 + sizeOf nm + sizeOf tr + sizeOf cs := by
        simp
      omega

theorem drop_get_head {α : Type} {l : List α} {k : ℕ} {c : α} {t : List α}
    (h : l.drop k = c :: t) : l.get? k = some c := by
  have h0 : (l.drop k)[0]? = some c := by rw [h]; simp
  rw [List.getElem?_drop, Nat.add_zero] at h0
  rw [List.get?_eq_getElem?]
  exact h0

theorem drop_succ_tail {α : Type} {l : List α} {k : ℕ} {c : α} {t : List α}
    (h : l.drop k = c :: t) : l.drop (k + 1) = t := by
  have h1 : l.drop (k + 1) = (l.drop k).drop 1 := by rw [List.drop_drop]
  rw [h1, h]; rfl

theorem nameAtD_cons {cs : List AiNode} {k : ℕ} {c : AiNode}
    (hk : cs.get? k = some c) (nm : String) (tr : Mat4) (p : List ℕ) :
    nameAtD ⟨nm, tr, cs⟩ (k :: p) = nameAtD c p := by
  have hk' : cs[k]? = some c := by rw [← List.get?_eq_getElem?]; exact hk
  simp [nameAtD, hk, hk']

theorem pathTransformD_cons {cs : List AiNode} {k : ℕ} {c : AiNode}
    (hk : cs.get? k = some c) (nm : String) (tr : Mat4) (p : List ℕ) :
    pathTransformD ⟨nm, tr, cs⟩ (k :: p) = mat4Mul tr (pathTransformD c p) := by
  have hk' : cs[k]? = some c := by rw [← List.get?_eq_getElem?]; exact hk
  simp [pathTransformD, hk, hk']

/-- Stepping one level down the tree shifts the path-addressed record
description: the parent's local transform joins the pre-composed prefix and
the parent's name becomes the fallback parent name. -/
theorem specEntryFrom_cons {cs : List AiNode} {k : ℕ} {c : AiNode}
    (hk : cs.get? k = some c) (nm : String) (tr : Mat4) (top : String)
    (pt : Mat4) (p : List ℕ) :
    specEntryFrom top pt ⟨nm, tr, cs⟩ (k :: p)
      = specEntryFrom nm (mat4Mul pt tr) c p := by
  have hk' : cs[k]? = some c := by rw [← List.get?_eq_getElem?]; exact hk
  unfold specEntryFrom
  cases p with
  | nil =>
    simp [nameAtD_cons hk, pathTransformD_cons hk, nameAtD, mat4Mul_assoc, hk, hk']
  | cons q qs =>
    simp [nameAtD_cons hk, pathTransformD_cons hk, mat4Mul_assoc, List.dropLast_cons₂,
      hk, hk']

/-- Refinement of the skeleton writer against the path-based description:
the records of `writeNode` are exactly, in order, the pre-order paths of
the subtree, each carrying the addressed node's name, the name one step up
(the caller's name at the subtree root), and the decomposition of the
pre-composed prefix times the ancestor-composed path transform. -/
theorem writeNodeEntries_eq_spec :
    ∀ (n : AiNode) (pname : Option String) (pt : Mat4),
      writeNodeEntries pname pt n
        = (allPaths n).map (specEntryFrom (pname.getD "") pt n) := by
  intro n
  induction n using aiNode_ind with
  | h nm tr cs ihm =>
    intro pname pt
    rw [writeNodeEntries, allPaths, List.map_cons]
    have hhead : specEntryFrom (pname.getD "") pt ⟨nm, tr, cs⟩ []
        = ⟨nm, pname.getD "", translationOf (mat4Mul pt tr), rotOf (mat4Mul pt tr)⟩ := by
      simp [specEntryFrom, nameAtD, pathTransformD]
    rw [hhead]
    simp only [List.cons.injEq]
    refine ⟨trivial, ?_⟩
    suffices H : ∀ (cs0 : List AiNode) (k : ℕ), cs.drop k = cs0 →
        writeNodeChildren nm (mat4Mul pt tr) cs0
          = (allPathsChildren cs0 k).map (specEntryFrom (pname.getD "") pt ⟨nm, tr, cs⟩) by
      exact H cs 0 (by simp)
    intro cs0
    induction cs0 with
    | nil =>
      intro k hdrop
      rw [writeNodeChildren, allPathsChildren]
      rfl
    | cons c cs1 ihc =>
      intro k hdrop
      have hget : cs.get? k = some c := drop_get_head hdrop
      have hdrop1 : cs.drop (k + 1) = cs1 := drop_succ_tail hdrop
      rw [writeNodeChildren, allPathsChildren, List.map_append, List.map_map]
      rw [ihm c (List.get?_mem hget) (some nm) (mat4Mul pt tr), ihc (k + 1) hdrop1]
      have hfun : (specEntryFrom (pname.getD "") pt ⟨nm, tr, cs⟩ ∘ fun p => k :: p)
          = specEntryFrom ((some nm).getD "") (mat4Mul pt tr) c := by
        funext p
        simp only [Function.comp_apply, Option.getD_some]
        exact specEntryFrom_cons hget nm tr (pname.getD "") pt p
      rw [hfun]

/-- The node count emitted by `countNodes` equals the number of pre-order
paths, i.e. the number of nodes of the tree, each counted once. -/
theorem countNodes_eq_allPaths_length :
    ∀ n : AiNode, countNodes n = (allPaths n).length := by
  intro n
  induction n using aiNode_ind with
  | h nm tr cs ihm =>
    rw [countNodes, allPaths, List.length_cons]
    suffices H : ∀ (cs0 : List AiNode) (k : ℕ),
        (∀ c ∈ cs0, countNodes c = (allPaths c).length) →
        countNodesList cs0 = (allPathsChildren cs0 k).length by
      rw [H cs 0 ihm]
      omega
    intro cs0
    induction cs0 with
    | nil => intro k h; rfl
    | cons c cs1 ihc =>
      intro k h
      rw [countNodesList, allPathsChildren, List.length_append, List.length_map,
        h c (by simp), ihc (k + 1) (fun x hx => h x (by simp [hx]))]

/-- The flattened node-name accumulation of `getBoneNames` lists, after the
incoming prefix, exactly the names of the pre-order paths. -/
theorem collectNames_eq :
    ∀ (n : AiNode) (acc : List String),
      collectNames n acc = acc ++ (allPaths n).map (nameAtD n) := by
  intro n
  induction n using aiNode_ind with
  | h nm tr cs ihm =>
    intro acc
    rw [collectNames, allPaths, List.map_cons]
    suffices H : ∀ (cs0 : List AiNode) (k : ℕ) (acc2 : List String), cs.drop k = cs0 →
        collectNamesList cs0 acc2
          = acc2 ++ (allPathsChildren cs0 k).map (nameAtD ⟨nm, tr, cs⟩) by
      rw [H cs 0 (acc ++ [nm]) (by simp)]
      simp [nameAtD]
    intro cs0
    induction cs0 with
    | nil =>
      intro k acc2 hdrop
      rw [collectNamesList, allPathsChildren]
      simp
    | cons c cs1 ihc =>
      intro k acc2 hdrop
      have hget : cs.get? k = some c := drop_get_head hdrop
      have hdrop1 : cs.drop (k + 1) = cs1 := drop_succ_tail hdrop
      rw [collectNamesList, allPathsChildren, List.map_append, List.map_map]
      rw [ihc (k + 1) (collectNames c acc2) hdrop1, ihm c (List.get?_mem hget) acc2]
      have hfun : (nameAtD ⟨nm, tr, cs⟩ ∘ fun p => k :: p) = nameAtD c := by
        funext p
        simp only [Function.comp_apply]
        exact nameAtD_cons hget nm tr p
      rw [hfun]
      simp [List.append_assoc]

/-- Growing the set of already-written names preserves the
parent-before-children check. -/
theorem parentLinked_mono :
    ∀ (es : List SkelEntry) (seen seen' : List String),
      (∀ s, s ∈ seen → s ∈ seen') →
      parentLinked seen es = true → parentLinked seen' es = true := by
  intro es
  induction es with
  | nil => intro seen seen' hsub h; rfl
  | cons e es ih =>
    intro seen seen' hsub h
    rw [parentLinked] at h ⊢
    simp only [Bool.and_eq_true, Bool.or_eq_true] at h ⊢
    refine ⟨?_, ih (e.name :: seen) (e.name :: seen') ?_ h.2⟩
    · rcases h.1 with h1 | h1
      · exact Or.inl h1
      · right
        have hm : e.parentName ∈ seen := by simpa using h1
        simpa using hsub _ hm
    · intro s hs
      rcases List.mem_cons.mp hs with rfl | hs
      · exact List.mem_cons_self _ _
      · exact List.mem_cons_of_mem _ (hsub _ hs)

/-- The parent-before-children check composes over concatenation: the
second block may additionally rely on every name of the first. -/
theorem parentLinked_append :
    ∀ (xs ys : List SkelEntry) (seen : List String),
      parentLinked seen xs = true →
      parentLinked ((xs.map (fun e => e.name)).reverse ++ seen) ys = true →
      parentLinked seen (xs ++ ys) = true := by
  intro xs
  induction xs with
  | nil =>
    intro ys seen h1 h2
    simpa using h2
  | cons x xs ih =>
    intro ys seen h1 h2
    rw [List.cons_append, parentLinked]
    rw [parentLinked] at h1
    simp only [Bool.and_eq_true] at h1 ⊢
    refine ⟨h1.1, ih ys (x.name :: seen) h1.2 ?_⟩
    simpa [List.reverse_cons, List.append_assoc] using h2

/-- Every record block of `writeNode` satisfies the parent-before-children
check, provided the incoming parent name (when any) was already written. -/
theorem parentLinked_writeNode :
    ∀ (n : AiNode) (pt : Mat4) (pname : Option String) (seen : List String),
      (∀ s, pname = some s → s ∈ seen) →
      parentLinked seen (writeNodeEntries pname pt n) = true := by
  intro n
  induction n using aiNode_ind with
  | h nm tr cs ihm =>
    intro pt pname seen hp
    rw [writeNodeEntries, parentLinked]
    simp only [Bool.and_eq_true, Bool.or_eq_true]
    constructor
    · cases pname with
      | none => left; rfl
      | some s =>
        right
        have := hp s rfl
        simpa using this
    · suffices H : ∀ (cs0 : List AiNode),
          (∀ c ∈ cs0, ∀ (pt : Mat4) (pname : Option String) (seen : List String),
            (∀ s, pname = some s → s ∈ seen) →
            parentLinked seen (writeNodeEntries pname pt c) = true) →
          ∀ (seen2 : List String), nm ∈ seen2 →
          parentLinked seen2 (writeNodeChildren nm (mat4Mul pt tr) cs0) = true by
        exact H cs ihm (nm :: seen) (by simp)
      intro cs0
      induction cs0 with
      | nil => intro hcs seen2 hmem; rfl
      | cons c cs1 ihc =>
        intro hcs seen2 hmem
        rw [writeNodeChildren]
        apply parentLinked_append
        · exact hcs c (by simp) (mat4Mul pt tr) (some nm) seen2
            (fun s hs => by cases hs; exact hmem)
        · apply ihc (fun x hx => hcs x (by simp [hx]))
          exact List.mem_append.mpr (Or.inr hmem)

/-- C8: the skeleton block begins with an `int32` node count equal to the
total number of nodes of the source tree (one pre-order path per node,
root plus all descendants counted once) and is followed by exactly that
many records; the records are, in pre-order, the path-addressed
descriptions — each node's name, its parent's name (the empty string for
the unique root, which has no parent), and the translation and rotation
blocks of the ancestor-composed accumulated transform — and every
non-empty parent name is the name of a record written earlier (parent
before children). -/
theorem c8_skeleton_block (scene : AiScene) :
    (writeSkeleton scene).1 = wrap32 (((allPaths scene.rootNode).length : ℕ) : ℤ)
    ∧ (writeSkeleton scene).2.length = (allPaths scene.rootNode).length
    ∧ (writeSkeleton scene).2
        = (allPaths scene.rootNode).map (specEntryFrom "" mat4Id scene.rootNode)
    ∧ parentLinked [] (writeSkeleton scene).2 = true := by
  refine ⟨?_, ?_, ?_, ?_⟩
  · show wrap32 ((countNodes scene.rootNode : ℕ) : ℤ) = _
    rw [countNodes_eq_allPaths_length]
  · show (writeNodeEntries none mat4Id scene.rootNode).length = _
    rw [writeNodeEntries_eq_spec, List.length_map]
  · show writeNodeEntries none mat4Id scene.rootNode = _
    rw [writeNodeEntries_eq_spec]
    rfl
  · exact parentLinked_writeNode scene.rootNode mat4Id none [] (fun s hs => nomatch hs)

/-- C4 counterexample: the claim says the number of bone-name hashes after
the rotation array equals the clip's channel count. On the two-node scene
(root `A`, child `B`) whose clip has a single channel, the code writes one
hash per flattened node name: 2 hashes against 1 channel. -/
theorem c4_hash_count_counterexample :
    (importAnimationArtifact c4Scene c4Anim).boneHashes.length = 2
    ∧ c4Anim.channels.length = 1
    ∧ ¬ (importAnimationArtifact c4Scene c4Anim).boneHashes.length
        = c4Anim.channels.length := by
  decide

/-- C4 amended: the hash table written after the rotation array has one
32-bit hash per name of the flattened node-name list, i.e. its length is
the total node count of the scene tree (not the clip's channel count); the
hash itself is a pure function of the bone name string, so two runs over
the same name produce the same hash. -/
theorem c4_bone_hash_table (scene : AiScene) (anim : AiAnimation) :
    (importAnimationArtifact scene anim).boneHashes.length = countNodes scene.rootNode
    ∧ (∀ s t : String, s = t → crc32 s = crc32 t) := by
  constructor
  · show ((getBoneNames scene).map crc32).length = _
    rw [List.length_map, getBoneNames, collectNames_eq, countNodes_eq_allPaths_length]
    simp
  · intro s t h
    rw [h]

/-- Witness for the amended C4 statement at the two-node scene. -/
theorem c4_bone_hash_table_witness :
    (importAnimationArtifact c4Scene c4Anim).boneHashes.length
      = countNodes c4Scene.rootNode
    ∧ crc32 "B" = crc32 "B" :=
  ⟨(c4_bone_hash_table c4Scene c4Anim).1,
   (c4_bone_hash_table c4Scene c4Anim).2 "B" "B" rfl⟩
